import Mathlib

/-!
Shallow embedding of the faiss GPU resource-management layer
(`faiss/gpu/GpuResources.cpp`) and of the warp-level top-k selection
primitive, together with proofs of the specified properties.

Pointers (`GpuResources*`, `cudaStream_t`, `void*`) are modelled as
`Option Nat`, with `none` standing for `nullptr`.  The C++ `enum class`
types `AllocType` and `MemorySpace` are modelled by their underlying
integer carrier, so that values outside the named enumerators exist in
the model exactly as they do in C++.
-/

namespace FaissGpu

/-- A pointer value: `none` is `nullptr`, `some a` an address. -/
abbrev Ptr := Option Nat

/-- Underlying carrier of `enum class AllocType`. -/
abbrev AllocType := Nat

def AllocType.Other : AllocType := 0

def AllocType.FlatData : AllocType := 1

def AllocType.IVFLists : AllocType := 2

def AllocType.Quantizer : AllocType := 3

def AllocType.QuantizerPrecomputedCodes : AllocType := 4

def AllocType.TemporaryMemoryBuffer : AllocType := 5

def AllocType.TemporaryMemoryOverflow : AllocType := 6

/-- Underlying carrier of `enum class MemorySpace`. -/
abbrev MemorySpace := Nat

def MemorySpace.Temporary : MemorySpace := 0

def MemorySpace.Device : MemorySpace := 1

def MemorySpace.Unified : MemorySpace := 2

/-- `allocTypeToString` (GpuResources.cpp lines 31-50): a `switch` over the
named enumerators with a `default` branch returning `"Unknown"`. -/
def allocTypeToString (t : AllocType) : String :=
  if t = AllocType.Other then "Other"
  else if t = AllocType.FlatData then "FlatData"
  else if t = AllocType.IVFLists then "IVFLists"
  else if t = AllocType.Quantizer then "Quantizer"
  else if t = AllocType.QuantizerPrecomputedCodes then "QuantizerPrecomputedCodes"
  else if t = AllocType.TemporaryMemoryBuffer then "TemporaryMemoryBuffer"
  else if t = AllocType.TemporaryMemoryOverflow then "TemporaryMemoryOverflow"
  else "Unknown"

/-- `memorySpaceToString` (GpuResources.cpp lines 52-63). -/
def memorySpaceToString (s : MemorySpace) : String :=
  if s = MemorySpace.Temporary then "Temporary"
  else if s = MemorySpace.Device then "Device"
  else if s = MemorySpace.Unified then "Unified"
  else "Unknown"

/-- `AllocInfo`: allocation descriptor (type, device, memory space, stream).
The C++ `int device` is modelled as `Int`. -/
structure AllocInfo where
  type : AllocType
  device : Int
  space : MemorySpace
  stream : Ptr
deriving Repr, DecidableEq

/-- Rendering of a pointer as the C++ `operator<<` on `void*` does:
`nullptr` prints as `0`, anything else as a hexadecimal address. -/
def ptrToString (p : Ptr) : String :=
  match p with
  | none => "0"
  | some n => "0x" ++ (Nat.toDigits 16 n).asString

/-- `AllocInfo::toString` (GpuResources.cpp lines 65-71):
`"type " << name << " dev " << device << " space " << name << " stream " << ptr`. -/
def AllocInfo.toString (i : AllocInfo) : String :=
  "type " ++ allocTypeToString i.type ++ " dev " ++ ToString.toString i.device
    ++ " space " ++ memorySpaceToString i.space ++ " stream " ++ ptrToString i.stream

/-- `AllocRequest`: an `AllocInfo` plus a size in bytes. -/
structure AllocRequest extends AllocInfo where
  size : Nat
deriving Repr, DecidableEq

/-- `AllocRequest::toString` (GpuResources.cpp lines 73-78):
the `AllocInfo` rendering followed by `" size " << size << " bytes"`. -/
def AllocRequest.toString (r : AllocRequest) : String :=
  AllocInfo.toString r.toAllocInfo ++ " size " ++ ToString.toString r.size ++ " bytes"

/-- `makeDevAlloc` (GpuResources.cpp lines 80-82).  `getCurrentDevice()` reads
thread-local CUDA state; it is modelled as the explicit argument `cur`, the
calling thread's currently active device. -/
def makeDevAlloc (cur : Int) (t : AllocType) (st : Ptr) : AllocInfo :=
  AllocInfo.mk t cur MemorySpace.Device st

/-- `makeTempAlloc` (GpuResources.cpp lines 84-86), with `getCurrentDevice()`
modelled as the explicit argument `cur`. -/
def makeTempAlloc (cur : Int) (t : AllocType) (st : Ptr) : AllocInfo :=
  AllocInfo.mk t cur MemorySpace.Temporary st

/-- `makeSpaceAlloc` (GpuResources.cpp lines 88-90), with `getCurrentDevice()`
modelled as the explicit argument `cur`. -/
def makeSpaceAlloc (cur : Int) (t : AllocType) (sp : MemorySpace) (st : Ptr) : AllocInfo :=
  AllocInfo.mk t cur sp st

/-- A call `res->deallocMemory(device, data)`: the resource instance it is
made on, the device argument and the data-pointer argument.  The same triple
identifies an allocation handed to a reservation. -/
structure AllocId where
  res : Nat
  device : Int
  data : Ptr
deriving Repr, DecidableEq

/-- `GpuMemoryReservation`: owning resource, device, stream, data pointer,
size (GpuResources.h fields, as used throughout GpuResources.cpp). -/
structure GpuMemoryReservation where
  res : Ptr
  device : Int
  stream : Ptr
  data : Ptr
  size : Nat
deriving Repr, DecidableEq

/-- The default constructor (GpuResources.cpp lines 96-97): the empty state
`res = nullptr, device = 0, stream = nullptr, data = nullptr, size = 0`. -/
def GpuMemoryReservation.mkDefault : GpuMemoryReservation :=
  GpuMemoryReservation.mk none 0 none none 0

/-- `GpuMemoryReservation::release` (lines 141-150): if `res` is non-null,
call `res->deallocMemory(device, data)` and reset every field to the empty
state; otherwise do nothing.  Returns the new state together with the list
of `deallocMemory` calls made. -/
def GpuMemoryReservation.release (r : GpuMemoryReservation) :
    GpuMemoryReservation × List AllocId :=
  match r.res with
  | some rp => (GpuMemoryReservation.mk none 0 none none 0, [AllocId.mk rp r.device r.data])
  | none => (r, [])

/-- The destructor (lines 152-156): `res->deallocMemory(device, data)` if
`res` is non-null; fields are not reset because the object ends its
lifetime.  Returns the list of `deallocMemory` calls made. -/
def GpuMemoryReservation.destruct (r : GpuMemoryReservation) : List AllocId :=
  match r.res with
  | some rp => [AllocId.mk rp r.device r.data]
  | none => []

/-- The move constructor (lines 107-118), field assignment by field
assignment: each `this->f = m.f; m.f = 0;` pair in source order.  Returns
the newly constructed object and the moved-from source. -/
def moveCtorFields (m : GpuMemoryReservation) :
    GpuMemoryReservation × GpuMemoryReservation :=
  let res := m.res
  let m := { m with res := none }
  let device := m.device
  let m := { m with device := 0 }
  let stream := m.stream
  let m := { m with stream := none }
  let data := m.data
  let m := { m with data := none }
  let size := m.size
  let m := { m with size := 0 }
  (GpuMemoryReservation.mk res device stream data size, m)

/-- Move assignment `operator=` (lines 120-139) for two distinct objects `d`
(the destination, `*this`) and `m` (the source).  First the assertion
`FAISS_ASSERT(!(res && res == m.res && device == m.device && data == m.data))`
(modelled as returning `none` when it fires, since a failed assertion
aborts), then `release()`, then the field-by-field transfer in source
order.  Returns the new destination, the new source and the `deallocMemory`
calls made. -/
def moveAssign (d m : GpuMemoryReservation) :
    Option (GpuMemoryReservation × GpuMemoryReservation × List AllocId) :=
  if !(d.res.isSome && d.res == m.res && d.device == m.device && d.data == m.data) then
    let rel := d.release
    let d := rel.1
    let d := { d with res := m.res }
    let m := { m with res := none }
    let d := { d with device := m.device }
    let m := { m with device := 0 }
    let d := { d with stream := m.stream }
    let m := { m with stream := none }
    let d := { d with data := m.data }
    let m := { m with data := none }
    let d := { d with size := m.size }
    let m := { m with size := 0 }
    some (d, m, rel.2)
  else
    none

/-- Move assignment `operator=` (lines 120-139) when destination and source
are the same object (`this == &m`): every write through `m` is a write to
the destination, so the same source lines act on the single state `x`. -/
def moveAssignSelf (x : GpuMemoryReservation) :
    Option (GpuMemoryReservation × List AllocId) :=
  if !(x.res.isSome && x.res == x.res && x.device == x.device && x.data == x.data) then
    let rel := x.release
    let x := rel.1
    let x := { x with res := x.res }
    let x := { x with res := none }
    let x := { x with device := x.device }
    let x := { x with device := 0 }
    let x := { x with stream := x.stream }
    let x := { x with stream := none }
    let x := { x with data := x.data }
    let x := { x with data := none }
    let x := { x with size := x.size }
    let x := { x with size := 0 }
    some (x, rel.2)
  else
    none

/-- An object identity for a `GpuMemoryReservation` living in a trace. -/
abbrev ObjId := Nat

/-- The set of live `GpuMemoryReservation` objects, as an association list
from object identity to object state. -/
abbrev Store := List (ObjId × GpuMemoryReservation)

def Store.find : Store → ObjId → Option GpuMemoryReservation
  | [], _ => none
  | e :: t, i => if e.1 = i then some e.2 else Store.find t i

def Store.set : Store → ObjId → GpuMemoryReservation → Store
  | [], _, _ => []
  | e :: t, i, v => if e.1 = i then (i, v) :: t else e :: Store.set t i v

def Store.del : Store → ObjId → Store
  | [], _ => []
  | e :: t, i => if e.1 = i then t else e :: Store.del t i

/-- `v` currently holds the allocation `a`: non-null owning resource equal to
`a.res`, same device and same data pointer — the notion of "same allocation"
used by the `operator=` assertion and by `deallocMemory`. -/
def GpuMemoryReservation.holds (v : GpuMemoryReservation) (a : AllocId) : Prop :=
  v.res = some a.res ∧ v.device = a.device ∧ v.data = a.data

instance (v : GpuMemoryReservation) (a : AllocId) : Decidable (v.holds a) := by
  unfold GpuMemoryReservation.holds
  infer_instance

/-- Number of live reservations currently holding allocation `a`. -/
def heldCount (s : Store) (a : AllocId) : Nat :=
  List.countP (fun e => decide (e.2.holds a)) s

/-- No live reservation holds allocation `a`. -/
def noLiveHolder (s : Store) (a : AllocId) : Bool :=
  s.all fun e => !(decide (e.2.holds a))

/-- The operations of a trace on `GpuMemoryReservation` objects:
construction from a fresh allocation (`GpuResources::allocMemoryHandle`,
lines 198-201), default construction, move construction, move assignment,
`release()`, and destruction. -/
inductive Op where
  | allocHandle (i : ObjId) (r : Nat) (dev : Int) (st : Ptr) (p : Ptr) (sz : Nat)
  | defaultCtor (i : ObjId)
  | moveCtor (i j : ObjId)
  | moveAssign (i j : ObjId)
  | release (i : ObjId)
  | destroy (i : ObjId)
deriving Repr, DecidableEq

/-- A trace configuration: the live objects and the chronological list of
`deallocMemory` calls made so far. -/
structure Config where
  store : Store
  log : List AllocId
deriving Repr, DecidableEq

/-- One trace step.  `none` means the step is not a defined, assertion-free
execution: a fired `FAISS_ASSERT` (which aborts the process), an operation
on a dead object, an id collision, or the memory manager handing out an
allocation some live reservation still holds (which would violate the
`GpuResources` contract of §4.2: at most one live owner per allocation). -/
def step (c : Config) : Op → Option Config
  | .allocHandle i r dev st p sz =>
    if Store.find c.store i = none ∧ noLiveHolder c.store (AllocId.mk r dev p) then
      some (Config.mk ((i, GpuMemoryReservation.mk (some r) dev st p sz) :: c.store) c.log)
    else none
  | .defaultCtor i =>
    if Store.find c.store i = none then
      some (Config.mk ((i, GpuMemoryReservation.mkDefault) :: c.store) c.log)
    else none
  | .moveCtor i j =>
    if i ≠ j ∧ Store.find c.store i = none then
      match Store.find c.store j with
      | some m =>
        some (Config.mk ((i, (moveCtorFields m).1) :: Store.set c.store j (moveCtorFields m).2)
          c.log)
      | none => none
    else none
  | .moveAssign i j =>
    if i = j then
      match Store.find c.store i with
      | some x =>
        match moveAssignSelf x with
        | some xc => some (Config.mk (Store.set c.store i xc.1) (c.log ++ xc.2))
        | none => none
      | none => none
    else
      match Store.find c.store i, Store.find c.store j with
      | some d, some m =>
        match moveAssign d m with
        | some dmc =>
          some (Config.mk (Store.set (Store.set c.store i dmc.1) j dmc.2.1) (c.log ++ dmc.2.2))
        | none => none
      | _, _ => none
  | .release i =>
    match Store.find c.store i with
    | some v => some (Config.mk (Store.set c.store i v.release.1) (c.log ++ v.release.2))
    | none => none
  | .destroy i =>
    match Store.find c.store i with
    | some v => some (Config.mk (Store.del c.store i) (c.log ++ v.destruct))
    | none => none

/-- Run a whole trace. -/
def run (c : Config) : List Op → Option Config
  | [] => some c
  | op :: ops =>
    match step c op with
    | some c2 => run c2 ops
    | none => none

/-- The allocations handed to a reservation by one operation: exactly the
`allocMemoryHandle` constructions. -/
def handedOf : Op → List AllocId
  | .allocHandle _ r dev _ p _ => [AllocId.mk r dev p]
  | _ => []

/-- All allocations handed to reservations along a trace. -/
def handed (ops : List Op) : List AllocId :=
  ops.flatMap handedOf

/-- The accounting invariant: every allocation handed out so far is either
held by exactly the live reservations counted in `heldCount`, or already
returned via `deallocMemory`, and the counts balance. -/
def Balanced (hnd : List AllocId) (c : Config) : Prop :=
  ∀ a : AllocId, hnd.count a = c.log.count a + heldCount c.store a

/-- Modelled from the spec: the selection direction of the warp-level top-k
selector (§4.5).  The implementation header
`faiss/gpu/utils/warpselect/WarpSelectImpl.cuh` is not under `src/`; only
the instantiation `WARP_SELECT_IMPL(float, false, 1024, 8)` is, so the
selector is modelled from the spec's contract.  Scores are modelled as
integers: the selection property is purely order-theoretic.
`better largest a b` means score `a` strictly precedes score `b` under the
direction (`largest = true` selects the largest values, `largest = false`
the smallest). -/
def better (largest : Bool) (a b : Int) : Bool :=
  if largest then b < a else a < b

/-- Modelled from the spec: the selector's reported order on (value,
original index) pairs — by score under the direction, equal scores broken
by ascending original index (§4.5 tie-breaking). -/
def selOrder (largest : Bool) (a b : Int × Nat) : Bool :=
  better largest a.1 b.1 || (a.1 == b.1 && decide (a.2 ≤ b.2))

/-- Modelled from the spec: a row of scores with original indices attached,
starting at index `i`. -/
def withIndices : List Int → Nat → List (Int × Nat)
  | [], _ => []
  | v :: t, i => (v, i) :: withIndices t (i + 1)

/-- Modelled from the spec (§4.5, §6, §8): the warp-level top-k selector's
observable per-row result — the `k` extreme (value, original index) pairs
of the row under the direction, ties at equal values broken by ascending
original index.  The in-warp algorithm (per-thread buffers merged by
warp-synchronous steps) is modelled by its contract: the first `k` entries
of the indexed row sorted by `selOrder`. -/
def warpSelect (largest : Bool) (row : List Int) (k : Nat) : List (Int × Nat) :=
  (List.insertionSort (fun a b => selOrder largest a b = true) (withIndices row 0)).take k

/-! Helper lemmas: net effect of the field-by-field move operations. -/

theorem moveAssign_eq (d m : GpuMemoryReservation) :
    moveAssign d m =
      if d.res.isSome ∧ d.res = m.res ∧ d.device = m.device ∧ d.data = m.data then
        none
      else
        some (GpuMemoryReservation.mk m.res m.device m.stream m.data m.size,
              GpuMemoryReservation.mk none 0 none none 0,
              d.destruct) := by
  unfold moveAssign
  rcases d with ⟨dr, dd, ds, dp, dz⟩
  rcases m with ⟨mr, md, ms, mp, mz⟩
  simp only [GpuMemoryReservation.release, GpuMemoryReservation.destruct]
  cases dr <;> simp_all
  split <;> simp_all
  tauto

theorem moveAssignSelf_eq (x : GpuMemoryReservation) :
    moveAssignSelf x =
      if x.res.isSome then none
      else some (GpuMemoryReservation.mk none 0 none none 0, []) := by
  unfold moveAssignSelf
  rcases x with ⟨xr, xd, xs, xp, xz⟩
  cases xr <;> simp [GpuMemoryReservation.release]

theorem moveCtorFields_eq (m : GpuMemoryReservation) :
    moveCtorFields m =
      (GpuMemoryReservation.mk m.res m.device m.stream m.data m.size,
       GpuMemoryReservation.mk none 0 none none 0) :=
  rfl

/-- C2: move assignment `d = std::move(s)` first asserts fatally (modelled
as `none`) exactly when `d` is non-empty and `d` and `s` reference the
identical allocation (same resource pointer, same device, same data
pointer); when the assertion passes it releases `d`'s current allocation
(one `deallocMemory` call on `d`'s old resource/device/data if `d` was
non-empty, none otherwise), transfers `s`'s resource, device, stream, data
and size into `d`, and leaves `s` in the empty state. -/
theorem moveAssign_asserts_then_releases_then_transfers (d m : GpuMemoryReservation) :
    moveAssign d m =
      if d.res.isSome ∧ d.res = m.res ∧ d.device = m.device ∧ d.data = m.data then
        none
      else
        some (GpuMemoryReservation.mk m.res m.device m.stream m.data m.size,
              GpuMemoryReservation.mk none 0 none none 0,
              match d.res with
              | some rp => [AllocId.mk rp d.device d.data]
              | none => []) := by
  rw [moveAssign_eq]
  rcases d with ⟨dr, dd, ds, dp, dz⟩
  cases dr <;> rfl

/-- C4: `release()` on a non-empty reservation makes exactly one
`deallocMemory` call, with the reservation's resource, device and data
pointer, and resets to the empty state; on an empty reservation it makes no
call and changes nothing; hence a second (or any later) `release()` is a
no-op. -/
theorem release_returns_once_and_idempotent (r : GpuMemoryReservation) :
    (∀ rp, r.res = some rp →
      r.release = (GpuMemoryReservation.mk none 0 none none 0,
                   [AllocId.mk rp r.device r.data]))
    ∧ (r.res = none → r.release = (r, []))
    ∧ (r.release.1).release = (r.release.1, []) := by
  rcases r with ⟨rr, rd, rs, rp, rz⟩
  cases rr <;> simp [GpuMemoryReservation.release]

theorem release_returns_once_and_idempotent_witness :
    (GpuMemoryReservation.mk (some 5) 2 none (some 7) 16).release
      = (GpuMemoryReservation.mk none 0 none none 0, [AllocId.mk 5 2 (some 7)]) :=
  (release_returns_once_and_idempotent (GpuMemoryReservation.mk (some 5) 2 none (some 7) 16)).1
    5 rfl

/-- C5: move-assigning an empty reservation onto an empty reservation
passes the ownership assertion, leaves both destination and source with a
null owning resource (empty), and makes no `deallocMemory` call; the same
holds when destination and source are the same empty object. -/
theorem empty_moveAssign_leaves_empty_no_dealloc (d m : GpuMemoryReservation)
    (hd : d.res = none) (hm : m.res = none) :
    moveAssign d m = some (GpuMemoryReservation.mk none m.device m.stream m.data m.size,
                           GpuMemoryReservation.mk none 0 none none 0, [])
    ∧ moveAssignSelf d = some (GpuMemoryReservation.mk none 0 none none 0, []) := by
  constructor
  · rw [moveAssign_eq, hm]
    rcases d with ⟨dr, dd, ds, dp, dz⟩
    cases dr <;> simp_all [GpuMemoryReservation.destruct]
  · rw [moveAssignSelf_eq, hd]
    rfl

theorem empty_moveAssign_leaves_empty_no_dealloc_witness :
    moveAssign (GpuMemoryReservation.mk none 0 none none 0)
        (GpuMemoryReservation.mk none 3 (some 4) (some 5) 6)
      = some (GpuMemoryReservation.mk none 3 (some 4) (some 5) 6,
              GpuMemoryReservation.mk none 0 none none 0, []) :=
  (empty_moveAssign_leaves_empty_no_dealloc (GpuMemoryReservation.mk none 0 none none 0)
    (GpuMemoryReservation.mk none 3 (some 4) (some 5) 6) rfl rfl).1

/-- C10: self-move-assignment `r = std::move(r)` fires the ownership
assertion exactly when `r` is non-empty (destination and source trivially
share resource, device and data pointer); only an empty reservation
self-move-assigns without asserting, and it stays empty with no
`deallocMemory` call. -/
theorem nonempty_self_moveAssign_asserts (x : GpuMemoryReservation) :
    (moveAssignSelf x = none ↔ x.res.isSome)
    ∧ (x.res = none →
        moveAssignSelf x = some (GpuMemoryReservation.mk none 0 none none 0, [])) := by
  rw [moveAssignSelf_eq]
  rcases x with ⟨xr, xd, xs, xp, xz⟩
  cases xr <;> simp

theorem nonempty_self_moveAssign_asserts_witness :
    (moveAssignSelf (GpuMemoryReservation.mk (some 5) 2 none (some 7) 16) = none
      ↔ (Option.some 5).isSome)
    ∧ moveAssignSelf (GpuMemoryReservation.mk none 2 none (some 7) 16)
        = some (GpuMemoryReservation.mk none 0 none none 0, []) :=
  ⟨(nonempty_self_moveAssign_asserts (GpuMemoryReservation.mk (some 5) 2 none (some 7) 16)).1,
   (nonempty_self_moveAssign_asserts (GpuMemoryReservation.mk none 2 none (some 7) 16)).2 rfl⟩

/-- C3: move construction from `m` produces a reservation holding exactly
`m`'s former resource, device, stream, data pointer and size, leaves `m` in
the empty state (null resource, device 0, null stream, null data pointer,
size 0), and makes no `deallocMemory` call (the trace log is unchanged). -/
theorem moveCtor_transfers_and_empties_source (c : Config) (i j : ObjId)
    (m : GpuMemoryReservation) (hij : i ≠ j) (hi : Store.find c.store i = none)
    (hj : Store.find c.store j = some m) :
    step c (Op.moveCtor i j) =
      some (Config.mk
        ((i, GpuMemoryReservation.mk m.res m.device m.stream m.data m.size)
          :: Store.set c.store j (GpuMemoryReservation.mk none 0 none none 0))
        c.log) := by
  simp [step, hij, hi, hj, moveCtorFields_eq]

theorem moveCtor_transfers_and_empties_source_witness :
    step (Config.mk [(4, GpuMemoryReservation.mk (some 1) 0 none (some 100) 16)] [])
        (Op.moveCtor 9 4)
      = some (Config.mk
          [(9, GpuMemoryReservation.mk (some 1) 0 none (some 100) 16),
           (4, GpuMemoryReservation.mk none 0 none none 0)] []) :=
  moveCtor_transfers_and_empties_source
    (Config.mk [(4, GpuMemoryReservation.mk (some 1) 0 none (some 100) 16)] []) 9 4
    (GpuMemoryReservation.mk (some 1) 0 none (some 100) 16) (by decide) rfl rfl

/-- C6: the convenience constructors `makeDevAlloc`, `makeTempAlloc` and
`makeSpaceAlloc` set the descriptor's device to the calling thread's
current device (`getCurrentDevice()`, the `cur` argument of the model) —
they accept no caller-supplied device — and set the space to `Device`,
`Temporary` and the caller-specified space respectively, carrying the
requested type and stream through. -/
theorem makeAllocs_snapshot_current_device (cur : Int) (t : AllocType)
    (sp : MemorySpace) (st : Ptr) :
    (makeDevAlloc cur t st).device = cur
    ∧ (makeDevAlloc cur t st).space = MemorySpace.Device
    ∧ (makeTempAlloc cur t st).device = cur
    ∧ (makeTempAlloc cur t st).space = MemorySpace.Temporary
    ∧ (makeSpaceAlloc cur t sp st).device = cur
    ∧ (makeSpaceAlloc cur t sp st).space = sp
    ∧ (makeDevAlloc cur t st).type = t ∧ (makeDevAlloc cur t st).stream = st
    ∧ (makeTempAlloc cur t st).type = t ∧ (makeTempAlloc cur t st).stream = st
    ∧ (makeSpaceAlloc cur t sp st).type = t ∧ (makeSpaceAlloc cur t sp st).stream = st :=
  ⟨rfl, rfl, rfl, rfl, rfl, rfl, rfl, rfl, rfl, rfl, rfl, rfl⟩

/-- C7: `AllocInfo::toString` contains the allocation type's name, the
device id, the memory space's name and the stream identity as substrings,
and `AllocRequest::toString` is exactly the `AllocInfo` rendering followed
by the size in bytes; the rendering is a function of the descriptor's
fields alone. -/
theorem allocToString_complete_rendering (i : AllocInfo) (r : AllocRequest) :
    (∃ u v, (AllocInfo.toString i).data = u ++ (allocTypeToString i.type).data ++ v)
    ∧ (∃ u v, (AllocInfo.toString i).data = u ++ (ToString.toString i.device).data ++ v)
    ∧ (∃ u v, (AllocInfo.toString i).data = u ++ (memorySpaceToString i.space).data ++ v)
    ∧ (∃ u v, (AllocInfo.toString i).data = u ++ (ptrToString i.stream).data ++ v)
    ∧ AllocRequest.toString r
        = AllocInfo.toString r.toAllocInfo ++ " size " ++ ToString.toString r.size
            ++ " bytes" := by
  refine ⟨⟨"type ".data,
      (" dev " ++ ToString.toString i.device ++ " space " ++ memorySpaceToString i.space
        ++ " stream " ++ ptrToString i.stream).data, ?_⟩,
    ⟨("type " ++ allocTypeToString i.type ++ " dev ").data,
      (" space " ++ memorySpaceToString i.space ++ " stream " ++ ptrToString i.stream).data, ?_⟩,
    ⟨("type " ++ allocTypeToString i.type ++ " dev " ++ ToString.toString i.device
        ++ " space ").data,
      (" stream " ++ ptrToString i.stream).data, ?_⟩,
    ⟨("type " ++ allocTypeToString i.type ++ " dev " ++ ToString.toString i.device
        ++ " space " ++ memorySpaceToString i.space ++ " stream ").data,
      [], ?_⟩, rfl⟩
    <;> simp [AllocInfo.toString, String.data_append, List.append_assoc]

/-- C9: `allocTypeToString` and `memorySpaceToString` are total over the
whole underlying carrier of the enums: every value, including values
outside the named enumerators, is mapped to a non-empty string, and every
unrecognized value is mapped to `"Unknown"`. -/
theorem enumToString_total_unknown (t : AllocType) (s : MemorySpace) :
    allocTypeToString t ≠ "" ∧ memorySpaceToString s ≠ ""
    ∧ (t ∉ [AllocType.Other, AllocType.FlatData, AllocType.IVFLists, AllocType.Quantizer,
          AllocType.QuantizerPrecomputedCodes, AllocType.TemporaryMemoryBuffer,
          AllocType.TemporaryMemoryOverflow] → allocTypeToString t = "Unknown")
    ∧ (s ∉ [MemorySpace.Temporary, MemorySpace.Device, MemorySpace.Unified] →
        memorySpaceToString s = "Unknown") := by
  unfold allocTypeToString memorySpaceToString
  refine ⟨?_, ?_, ?_, ?_⟩
  · split_ifs <;> simp
  · split_ifs <;> simp
  · intro ht
    simp at ht
    split_ifs <;> simp_all
  · intro hs
    simp at hs
    split_ifs <;> simp_all

theorem enumToString_total_unknown_witness :
    allocTypeToString 99 = "Unknown" ∧ memorySpaceToString 99 = "Unknown" :=
  ⟨(enumToString_total_unknown 99 99).2.2.1 (by decide),
   (enumToString_total_unknown 99 99).2.2.2 (by decide)⟩

/-! Counting lemmas over the object store, for the exactly-once theorem. -/

theorem find_set_ne (s : Store) (i j : ObjId) (w : GpuMemoryReservation) (h : i ≠ j) :
    Store.find (Store.set s i w) j = Store.find s j := by
  induction s with
  | nil => rfl
  | cons e t ih =>
    by_cases he : e.1 = i
    · rw [Store.set, if_pos he, Store.find, Store.find]
      rw [if_neg h, if_neg (he ▸ h)]
    · rw [Store.set, if_neg he, Store.find, Store.find]
      by_cases hej : e.1 = j
      · rw [if_pos hej, if_pos hej]
      · rw [if_neg hej, if_neg hej, ih]

theorem countP_set (q : GpuMemoryReservation → Bool) (s : Store) (i : ObjId)
    (v w : GpuMemoryReservation) (h : Store.find s i = some v) :
    List.countP (fun e => q e.2) (Store.set s i w) + (if q v then 1 else 0)
      = List.countP (fun e => q e.2) s + (if q w then 1 else 0) := by
  induction s with
  | nil => simp [Store.find] at h
  | cons e t ih =>
    rw [Store.find] at h
    by_cases he : e.1 = i
    · rw [if_pos he] at h
      injection h with h
      rw [Store.set, if_pos he]
      simp only [List.countP_cons, h]
      omega
    · rw [if_neg he] at h
      rw [Store.set, if_neg he]
      simp only [List.countP_cons]
      have := ih h
      omega

theorem countP_del (q : GpuMemoryReservation → Bool) (s : Store) (i : ObjId)
    (v : GpuMemoryReservation) (h : Store.find s i = some v) :
    List.countP (fun e => q e.2) (Store.del s i) + (if q v then 1 else 0)
      = List.countP (fun e => q e.2) s := by
  induction s with
  | nil => simp [Store.find] at h
  | cons e t ih =>
    rw [Store.find] at h
    by_cases he : e.1 = i
    · rw [if_pos he] at h
      injection h with h
      rw [Store.del, if_pos he]
      simp only [List.countP_cons, h]
    · rw [if_neg he] at h
      rw [Store.del, if_neg he]
      simp only [List.countP_cons]
      have := ih h
      omega

theorem destruct_count (d : GpuMemoryReservation) (a : AllocId) :
    List.count a d.destruct = (if d.holds a then 1 else 0) := by
  rcases d with ⟨dr, dd, ds, dp, dz⟩
  rcases a with ⟨ar, ad, ap⟩
  cases dr with
  | none => simp [GpuMemoryReservation.destruct, GpuMemoryReservation.holds]
  | some rv =>
    simp [GpuMemoryReservation.destruct, GpuMemoryReservation.holds,
      List.count_cons, AllocId.mk.injEq]

theorem release_snd (r : GpuMemoryReservation) : r.release.2 = r.destruct := by
  rcases r with ⟨rr, rd, rs, rp, rz⟩
  cases rr <;> rfl

theorem release_fst_holds (r : GpuMemoryReservation) (a : AllocId) :
    ¬ (r.release.1).holds a := by
  rcases r with ⟨rr, rd, rs, rp, rz⟩
  cases rr <;> simp [GpuMemoryReservation.release, GpuMemoryReservation.holds]

theorem holds_of_res_none (v : GpuMemoryReservation) (a : AllocId) (h : v.res = none) :
    ¬ v.holds a := by
  simp [GpuMemoryReservation.holds, h]

theorem holds_mk_some (r : Nat) (dev : Int) (st p : Ptr) (sz : Nat) (a : AllocId) :
    (GpuMemoryReservation.mk (some r) dev st p sz).holds a ↔ AllocId.mk r dev p = a := by
  rcases a with ⟨ar, ad, ap⟩
  simp [GpuMemoryReservation.holds, AllocId.mk.injEq]

theorem heldCount_cons (i : ObjId) (v : GpuMemoryReservation) (s : Store) (a : AllocId) :
    heldCount ((i, v) :: s) a = heldCount s a + (if v.holds a then 1 else 0) := by
  simp [heldCount, List.countP_cons]

theorem heldCount_set (s : Store) (i : ObjId) (v w : GpuMemoryReservation) (a : AllocId)
    (h : Store.find s i = some v) :
    heldCount (Store.set s i w) a + (if v.holds a then 1 else 0)
      = heldCount s a + (if w.holds a then 1 else 0) := by
  have hc := countP_set (fun x => decide (x.holds a)) s i v w h
  simpa [heldCount] using hc

theorem heldCount_del (s : Store) (i : ObjId) (v : GpuMemoryReservation) (a : AllocId)
    (h : Store.find s i = some v) :
    heldCount (Store.del s i) a + (if v.holds a then 1 else 0) = heldCount s a := by
  have hc := countP_del (fun x => decide (x.holds a)) s i v h
  simpa [heldCount] using hc
theorem step_balanced {c c2 : Config} {op : Op} {hnd : List AllocId}
    (hb : Balanced hnd c) (h : step c op = some c2) :
    Balanced (hnd ++ handedOf op) c2 := by
  intro a
  have hba := hb a
  rw [List.count_append]
  cases op with
  | allocHandle i r dev st p sz =>
    rw [step] at h
    split at h
    case isFalse => simp at h
    case isTrue hcond =>
      injection h with h
      subst h
      have hc := heldCount_cons i (GpuMemoryReservation.mk (some r) dev st p sz) c.store a
      have hv : (if (GpuMemoryReservation.mk (some r) dev st p sz).holds a then (1:Nat) else 0)
          = List.count a [AllocId.mk r dev p] := by
        simp [List.count_cons, holds_mk_some]
      simp only [handedOf]
      omega
  | defaultCtor i =>
    rw [step] at h
    split at h
    case isFalse => simp at h
    case isTrue hcond =>
      injection h with h
      subst h
      have hc := heldCount_cons i GpuMemoryReservation.mkDefault c.store a
      rw [if_neg (holds_of_res_none GpuMemoryReservation.mkDefault a rfl)] at hc
      simp only [handedOf, List.count_nil]
      omega
  | moveCtor i j =>
    rw [step] at h
    split at h
    case isFalse => simp at h
    case isTrue hcond =>
      cases hj : Store.find c.store j with
      | none =>
        rw [hj] at h
        exact absurd h (by simp)
      | some m =>
        rw [hj] at h
        dsimp only at h
        injection h with h
        subst h
        have hc := heldCount_cons i (moveCtorFields m).1
          (Store.set c.store j (moveCtorFields m).2) a
        have hs := heldCount_set c.store j m (moveCtorFields m).2 a hj
        have hm1 : (if ((moveCtorFields m).1).holds a then (1:Nat) else 0)
            = if m.holds a then 1 else 0 := by
          rcases m with ⟨mr, md, ms, mp, mz⟩
          rfl
        have hm2 : (if ((moveCtorFields m).2).holds a then (1:Nat) else 0) = 0 := by
          rw [if_neg]
          rw [moveCtorFields_eq]
          exact holds_of_res_none _ a rfl
        rw [hm2] at hs
        simp only [handedOf, List.count_nil]
        omega
  | moveAssign i j =>
    rw [step] at h
    by_cases hij : i = j
    · rw [if_pos hij] at h
      subst hij
      cases hi : Store.find c.store i with
      | none =>
        rw [hi] at h
        exact absurd h (by simp)
      | some x =>
        rw [hi] at h
        dsimp only at h
        rw [moveAssignSelf_eq] at h
        split at h
        next xc heq =>
          injection h with h
          subst h
          split at heq
          next => exact absurd heq (by simp)
          next hres =>
            injection heq with heq
            subst heq
            have hxn : x.res = none := Option.not_isSome_iff_eq_none.mp hres
            have hs := heldCount_set c.store i x (GpuMemoryReservation.mk none 0 none none 0) a hi
            rw [if_neg (holds_of_res_none x a hxn),
              if_neg (holds_of_res_none (GpuMemoryReservation.mk none 0 none none 0) a rfl)] at hs
            simp only [handedOf, List.count_nil, List.count_append]
            omega
        next heq => exact absurd h (by simp)
    · rw [if_neg hij] at h
      cases hi : Store.find c.store i with
      | none =>
        rw [hi] at h
        exact absurd h (by simp)
      | some d =>
        cases hj : Store.find c.store j with
        | none =>
          rw [hi, hj] at h
          exact absurd h (by simp)
        | some m =>
          rw [hi, hj] at h
          dsimp only at h
          rw [moveAssign_eq] at h
          split at h
          next dmc heq =>
            injection h with h
            subst h
            split at heq
            next => exact absurd heq (by simp)
            next hcond =>
              injection heq with heq
              subst heq
              dsimp only
              have hs1 := heldCount_set c.store i d
                (GpuMemoryReservation.mk m.res m.device m.stream m.data m.size) a hi
              have hfind2 : Store.find
                  (Store.set c.store i
                    (GpuMemoryReservation.mk m.res m.device m.stream m.data m.size)) j
                  = some m := by rw [find_set_ne _ _ _ _ hij, hj]
              have hs2 := heldCount_set
                (Store.set c.store i
                  (GpuMemoryReservation.mk m.res m.device m.stream m.data m.size)) j m
                (GpuMemoryReservation.mk none 0 none none 0) a hfind2
              have hm1 : (if (GpuMemoryReservation.mk m.res m.device m.stream m.data m.size).holds a
                  then (1:Nat) else 0) = if m.holds a then 1 else 0 := by
                rcases m with ⟨mr, md, ms, mp, mz⟩
                rfl
              rw [if_neg (holds_of_res_none (GpuMemoryReservation.mk none 0 none none 0) a rfl)]
                at hs2
              have hlog : List.count a (c.log ++ d.destruct)
                  = List.count a c.log + (if d.holds a then 1 else 0) := by
                rw [List.count_append, destruct_count]
              simp only [handedOf, List.count_nil]
              omega
          next heq => exact absurd h (by simp)
  | release i =>
    rw [step] at h
    cases hi : Store.find c.store i with
    | none =>
      rw [hi] at h
      exact absurd h (by simp)
    | some v =>
      rw [hi] at h
      dsimp only at h
      injection h with h
      subst h
      have hs := heldCount_set c.store i v v.release.1 a hi
      rw [if_neg (release_fst_holds v a)] at hs
      have hlog : List.count a (c.log ++ v.release.2)
          = List.count a c.log + (if v.holds a then 1 else 0) := by
        rw [List.count_append, release_snd, destruct_count]
      simp only [handedOf, List.count_nil]
      omega
  | destroy i =>
    rw [step] at h
    cases hi : Store.find c.store i with
    | none =>
      rw [hi] at h
      exact absurd h (by simp)
    | some v =>
      rw [hi] at h
      dsimp only at h
      injection h with h
      subst h
      have hdel := heldCount_del c.store i v a hi
      have hlog : List.count a (c.log ++ v.destruct)
          = List.count a c.log + (if v.holds a then 1 else 0) := by
        rw [List.count_append, destruct_count]
      simp only [handedOf, List.count_nil]
      omega

theorem run_balanced {c final : Config} {hnd : List AllocId} (ops : List Op)
    (hb : Balanced hnd c) (h : run c ops = some final) :
    Balanced (hnd ++ handed ops) final := by
  induction ops generalizing c hnd with
  | nil =>
    rw [run] at h
    injection h with h
    subst h
    simpa [handed] using hb
  | cons op ops ih =>
    rw [run] at h
    cases hs : step c op with
    | none => rw [hs] at h; simp at h
    | some c2 =>
      rw [hs] at h
      have hrest := ih (step_balanced hb hs) h
      have hl : hnd ++ handed (op :: ops) = (hnd ++ handedOf op) ++ handed ops := by
        simp [handed, List.append_assoc]
      rw [hl]
      exact hrest

/-- C1: along any defined, assertion-free trace of operations on
`GpuMemoryReservation` objects (construction from an allocation handed out
by a `GpuResources` instance, default/move construction, move assignment,
`release()`, destruction) at whose end no live reservation still owns an
allocation, every allocation handed to a reservation — identified by its
owning resource instance, device and data pointer — is passed to
`deallocMemory` exactly as many times as it was handed out: never zero and
never more than once per hand-out. -/
theorem reservation_dealloc_exactly_once (ops : List Op) (final : Config)
    (hrun : run (Config.mk [] []) ops = some final)
    (hempty : ∀ e ∈ final.store, e.2.res = none) :
    ∀ a : AllocId, final.log.count a = (handed ops).count a := by
  intro a
  have hb0 : Balanced [] (Config.mk [] []) := by
    intro b
    simp [heldCount]
  have hb := run_balanced ops hb0 hrun a
  have hz : heldCount final.store a = 0 := by
    apply List.countP_eq_zero.mpr
    intro e he
    simp [decide_eq_true_eq, holds_of_res_none e.2 a (hempty e he)]
  rw [List.nil_append] at hb
  omega

/-- A concrete trace: two allocations from resource 1, a move construction,
a move assignment that releases the destination's allocation, an explicit
release, and destruction of every object. -/
def exampleTrace : List Op :=
  [Op.allocHandle 0 1 0 none (some 100) 16,
   Op.moveCtor 1 0,
   Op.allocHandle 2 1 0 none (some 200) 32,
   Op.moveAssign 1 2,
   Op.release 1,
   Op.defaultCtor 3,
   Op.destroy 0, Op.destroy 1, Op.destroy 2, Op.destroy 3]

theorem reservation_dealloc_exactly_once_witness :
    (Config.mk [] [AllocId.mk 1 0 (some 100), AllocId.mk 1 0 (some 200)]).log.count
        (AllocId.mk 1 0 (some 100))
      = (handed exampleTrace).count (AllocId.mk 1 0 (some 100)) :=
  reservation_dealloc_exactly_once exampleTrace
    (Config.mk [] [AllocId.mk 1 0 (some 100), AllocId.mk 1 0 (some 200)])
    (by decide) (by simp) (AllocId.mk 1 0 (some 100))

/-! Lemmas about the selector's comparison order. -/

theorem selOrder_trans (largest : Bool) (a b c : Int × Nat)
    (hab : selOrder largest a b = true) (hbc : selOrder largest b c = true) :
    selOrder largest a c = true := by
  cases largest <;> simp [selOrder, better] at hab hbc ⊢ <;> omega

theorem selOrder_total (largest : Bool) (a b : Int × Nat) :
    (selOrder largest a b || selOrder largest b a) = true := by
  cases largest <;> simp [selOrder, better] <;> omega

theorem selOrder_not_better (largest : Bool) (p q : Int × Nat)
    (h : selOrder largest p q = true) : better largest q.1 p.1 = false := by
  cases largest <;> simp [selOrder, better] at h ⊢ <;> omega

theorem withIndices_length (row : List Int) (n : Nat) :
    (withIndices row n).length = row.length := by
  induction row generalizing n with
  | nil => rfl
  | cons v t ih => simp [withIndices, ih]

/-- C8: the top-k selector returns exactly the true top-k multiset of the
row under the requested direction, with original indices: its output has
`min k N` entries, the indexed row splits (as a multiset) into the output
plus a remainder none of whose scores strictly beats any selected score
under the direction; for `k ≥ N` the output is the whole row (as a
multiset), for `k = 0` it is empty, and for `N = 0` it is empty for every
`k`. -/
theorem warpSelect_true_topk (largest : Bool) (row : List Int) (k : Nat) :
    (warpSelect largest row k).length = min k row.length
    ∧ (∃ rest, List.Perm (withIndices row 0) (warpSelect largest row k ++ rest)
        ∧ ∀ p ∈ warpSelect largest row k, ∀ q ∈ rest, better largest q.1 p.1 = false)
    ∧ (row.length ≤ k → List.Perm (warpSelect largest row k) (withIndices row 0))
    ∧ (k = 0 → warpSelect largest row k = [])
    ∧ (row = [] → warpSelect largest row k = []) := by
  haveI : IsTrans (Int × Nat) (fun a b => selOrder largest a b = true) :=
    ⟨fun a b c => selOrder_trans largest a b c⟩
  haveI : IsTotal (Int × Nat) (fun a b => selOrder largest a b = true) :=
    ⟨fun a b => Bool.or_eq_true_iff.mp (selOrder_total largest a b)⟩
  have hperm : List.Perm
      (List.insertionSort (fun a b => selOrder largest a b = true) (withIndices row 0))
      (withIndices row 0) := List.perm_insertionSort _ _
  have hlen : (List.insertionSort (fun a b => selOrder largest a b = true)
      (withIndices row 0)).length = row.length := by
    rw [hperm.length_eq, withIndices_length]
  have hsorted : List.Pairwise (fun a b => selOrder largest a b = true)
      (List.insertionSort (fun a b => selOrder largest a b = true) (withIndices row 0)) :=
    List.sorted_insertionSort _ _
  unfold warpSelect
  refine ⟨?_,
    ⟨(List.insertionSort (fun a b => selOrder largest a b = true) (withIndices row 0)).drop k,
      ?_, ?_⟩,
    ?_, ?_, ?_⟩
  · rw [List.length_take, hlen]
  · rw [List.take_append_drop]
    exact hperm.symm
  · intro p hp q hq
    rw [← List.take_append_drop k
      (List.insertionSort (fun a b => selOrder largest a b = true) (withIndices row 0))]
      at hsorted
    exact selOrder_not_better largest p q ((List.pairwise_append.mp hsorted).2.2 p hp q hq)
  · intro hk
    rw [List.take_of_length_le (by omega)]
    exact hperm
  · intro hk
    rw [hk]
    exact List.take_zero _
  · intro hk
    subst hk
    exact List.take_nil

theorem warpSelect_true_topk_witness :
    (warpSelect true [5, 1, 9, 9, 3, 7] 3).length = min 3 6
    ∧ List.Perm (warpSelect true [5, 1, 9, 9, 3, 7] 9) (withIndices [5, 1, 9, 9, 3, 7] 0)
    ∧ warpSelect true [5, 1, 9, 9, 3, 7] 0 = []
    ∧ warpSelect false [] 3 = []
    ∧ warpSelect true [5, 1, 9, 9, 3, 7] 3 = [(9, 2), (9, 3), (7, 5)] :=
  ⟨(warpSelect_true_topk true [5, 1, 9, 9, 3, 7] 3).1,
   (warpSelect_true_topk true [5, 1, 9, 9, 3, 7] 9).2.2.1 (by decide),
   (warpSelect_true_topk true [5, 1, 9, 9, 3, 7] 0).2.2.2.1 rfl,
   (warpSelect_true_topk false [] 3).2.2.2.2 rfl,
   by decide⟩

end FaissGpu
